import Mathlib

set_option maxRecDepth 100000

/-!
# tellstick-influxdb: a verification development for `main.cc`

The program forwards temperature readings of a Tellstick sensor feed to an InfluxDB
endpoint.  A callback (`SensorCb`) filters and parses each sensor event and appends a
`Value` to a shared vector; the main loop waits on a semaphore, drains the vector,
encodes every reading with `GetInfluxLine` and hands the text to `PostInfluxData`;
the `SIGTERM` handler `stop` clears the `running` flag and posts the semaphore.

The embedding is shallow: `int` is `Int` (no arithmetic is performed on the ints of
this program, so no wrap-around can occur), `float` is the IEEE-754 binary32 model
`F32`, `std::string`/`std::stringstream` are `String`, `std::vector<Value>` is
`List Value`, and the process state touched by the code (the globals `running`,
`semaphore`, the `errno` of the callback thread, the `Context`, the syslog output and
the bodies handed to `PostInfluxData`) is the record `World`, passed explicitly.

The C and C++ library routines used by the code (`strtof`, `operator<<` on `int` and
`float`, `sem_post`, `sem_wait`, `pthread_mutex_lock/unlock`) are modelled after
ISO C / POSIX and glibc / libstdc++ in the "C" locale.
-/

namespace Tellstick

/-! ## Stream output of integers: `ss << int` -/

/-- The character of a decimal digit `d < 10`. -/
def digitChar (d : Nat) : Char := Char.ofNat (48 + d)

/-- Decimal digits of `n`, most significant first, pushed in front of `acc`.
`fuel` bounds the number of digits produced; `n + 1` is always enough. -/
def natDigitsAux : Nat → Nat → List Char → List Char
  | 0, _, acc => acc
  | fuel + 1, n, acc =>
    if n / 10 = 0 then digitChar (n % 10) :: acc
    else natDigitsAux fuel (n / 10) (digitChar (n % 10) :: acc)

/-- Decimal digits of a natural number ("0" for zero, no leading zeros otherwise). -/
def natDigits (n : Nat) : List Char := natDigitsAux (n + 1) n []

/-- The text written by `ss << i` for an `int`: decimal, with a leading `-` when negative. -/
def showInt : Int → String
  | Int.ofNat n => ⟨natDigits n⟩
  | Int.negSucc n => ⟨'-' :: natDigits (n + 1)⟩

/-! ## binary32 floating point -/

/-- An IEEE-754 binary32 datum.  `finite neg mant exp` denotes `(-1)^neg * mant * 2^exp`;
values produced by `roundF32` are canonical: `mant < 2^24`, `-149 ≤ exp ≤ 104`, and
`exp = -149` whenever `mant < 2^23` (zero and subnormals).  The payload of a NaN is
not represented. -/
inductive F32 where
  | finite (neg : Bool) (mant : Nat) (exp : Int)
  | inf (neg : Bool)
  | nan (neg : Bool)
  deriving DecidableEq, Repr


/-- Quotient of `n / d` rounded to the nearest integer, ties to even (`d > 0`). -/
def roundHalfEven (n d : Nat) : Nat :=
  let q := n / d
  let r := n % d
  if d < 2 * r ∨ (2 * r = d ∧ q % 2 = 1) then q + 1 else q

/-- Numerator and denominator of `(num / den) / 2^e`. -/
def scaleBy2 (num den : Nat) (e : Int) : Nat × Nat :=
  match e with
  | Int.ofNat k => (num, den * 2 ^ k)
  | Int.negSucc k => (num * 2 ^ (k + 1), den)

/-- Search, upwards from `e`, for the least exponent at which the integer part of
`(num / den) / 2^e` fits in 24 bits.  `none` when `fuel` exponents were tried in vain. -/
def findExp : Nat → Nat → Nat → Int → Option Int
  | 0, _, _, _ => none
  | fuel + 1, num, den, e =>
    let s := scaleBy2 num den e
    if s.1 / s.2 < 2 ^ 24 then some e else findExp fuel num den (e + 1)

/-- Result of rounding a real number to binary32. -/
structure Rounded where
  val : F32
  /-- the magnitude exceeds the largest finite binary32 value after rounding -/
  overflow : Bool
  /-- the result is tiny (below `FLT_MIN` in magnitude) and differs from the exact value -/
  underflow : Bool
  deriving DecidableEq, Repr

/-- Round `(-1)^neg * num / den` (`den > 0`) to binary32, to nearest, ties to even.
The exponent range is `-149 .. 104` for a 24-bit significand.  Tininess is detected
after rounding (as on x86-64): the value is tiny when, rounded to 24 bits with an
unbounded exponent, it is still below `FLT_MIN = 2^-126`, that is when it is below
`(2^25 - 1) * 2^-151`. -/
def roundF32 (neg : Bool) (num den : Nat) : Rounded :=
  match findExp 254 num den (-149) with
  | none => ⟨F32.inf neg, true, false⟩
  | some e =>
    let s := scaleBy2 num den e
    let m := roundHalfEven s.1 s.2
    let inexact := s.1 % s.2 != 0
    let t := scaleBy2 num den (-151)
    let tiny := decide (t.1 < (2 ^ 25 - 1) * t.2)
    if m = 2 ^ 24 then
      if e + 1 > 104 then ⟨F32.inf neg, true, false⟩
      else ⟨F32.finite neg (2 ^ 23) (e + 1), false, false⟩
    else ⟨F32.finite neg m e, false, inexact && tiny⟩

/-! ## `strtof` -/

/-- The `isspace` of the "C" locale. -/
def isspace (c : Char) : Bool :=
  c == ' ' || c == '\t' || c == '\n' || c == '\x0b' || c == '\x0c' || c == '\r'

/-- The `isxdigit` of the "C" locale. -/
def isxdigit (c : Char) : Bool :=
  c.isDigit || ('a' ≤ c && c ≤ 'f') || ('A' ≤ c && c ≤ 'F')

/-- Value of a hexadecimal (or decimal) digit character. -/
def xdigitVal (c : Char) : Nat :=
  if c.isDigit then c.toNat - 48
  else if 'a' ≤ c && c ≤ 'f' then c.toNat - 87
  else c.toNat - 55

/-- Value of a digit sequence in the given base, most significant digit first. -/
def digitsValue (base : Nat) (ds : List Char) : Nat :=
  ds.foldl (fun a c => base * a + xdigitVal c) 0

/-- An optional leading sign: whether it is `-`, how many characters it takes, and the rest. -/
def parseSign : List Char → Bool × Nat × List Char
  | '-' :: r => (true, 1, r)
  | '+' :: r => (false, 1, r)
  | r => (false, 0, r)

/-- An optional exponent part `e[sign]digits` (`p[sign]digits` for hexadecimal input):
its value and the number of characters it takes.  An exponent letter that is not
followed by at least one digit is not part of the number. -/
def parseExponent (letter : Char) : List Char → Int × Nat
  | [] => (0, 0)
  | c :: rest =>
    if c.toLower == letter then
      let sg := parseSign rest
      let ds := sg.2.2.takeWhile Char.isDigit
      if ds.isEmpty then (0, 0)
      else
        let v : Int := Int.ofNat (digitsValue 10 ds)
        (if sg.1 then -v else v, 1 + sg.2.1 + ds.length)
    else (0, 0)

/-- The digits of a mantissa `digits [. digits]`: integer digits, fraction digits,
the length of the whole mantissa text and the text after it. -/
def parseMantissa (isDig : Char → Bool) (cs : List Char) :
    List Char × List Char × Nat × List Char :=
  let ip := cs.takeWhile isDig
  let r1 := cs.dropWhile isDig
  match r1 with
  | '.' :: r =>
    let fp := r.takeWhile isDig
    (ip, fp, ip.length + 1 + fp.length, r.dropWhile isDig)
  | _ => (ip, [], ip.length, r1)

/-- Numerator and denominator of `m * base^e`. -/
def scaled (m base : Nat) (e : Int) : Nat × Nat :=
  match e with
  | Int.ofNat k => (m * base ^ k, 1)
  | Int.negSucc k => (m, base ^ (k + 1))

/-- A decimal floating constant at the head of `cs`: its exact value as a fraction and
its length.  `none` when `cs` does not start with one (no digit in the mantissa). -/
def parseDecimal (cs : List Char) : Option (Nat × Nat × Nat) :=
  let m := parseMantissa Char.isDigit cs
  if m.1.isEmpty && m.2.1.isEmpty then none
  else
    let e := parseExponent 'e' m.2.2.2
    let q := scaled (digitsValue 10 (m.1 ++ m.2.1)) 10 (e.1 - Int.ofNat m.2.1.length)
    some (q.1, q.2, m.2.2.1 + e.2)

/-- A hexadecimal floating constant `0x hexdigits [. hexdigits] [p[sign]digits]` at the
head of `cs`.  `none` when `0x` is absent or not followed by a hexadecimal digit. -/
def parseHex : List Char → Option (Nat × Nat × Nat)
  | '0' :: x :: rest =>
    if x.toLower == 'x' then
      let m := parseMantissa isxdigit rest
      if m.1.isEmpty && m.2.1.isEmpty then none
      else
        let e := parseExponent 'p' m.2.2.2
        let q := scaled (digitsValue 16 (m.1 ++ m.2.1)) 2 (e.1 - 4 * Int.ofNat m.2.1.length)
        some (q.1, q.2, 2 + m.2.2.1 + e.2)
    else none
  | _ => none

/-- Case-insensitive test that `cs` starts with the lower-case word `word`. -/
def startsWithCI (word : String) (cs : List Char) : Bool :=
  (cs.take word.length).map Char.toLower == word.data

/-- The forms `inf`, `infinity`, `nan` and `nan(n-char-sequence)`, any case:
the datum and the length of the text. -/
def parseSpecial (neg : Bool) (cs : List Char) : Option (F32 × Nat) :=
  if startsWithCI "infinity" cs then some (F32.inf neg, 8)
  else if startsWithCI "inf" cs then some (F32.inf neg, 3)
  else if startsWithCI "nan" cs then
    match cs.drop 3 with
    | '(' :: r =>
      let body := r.takeWhile (fun c => c.isAlphanum || c == '_')
      match r.dropWhile (fun c => c.isAlphanum || c == '_') with
      | ')' :: _ => some (F32.nan neg, 3 + 1 + body.length + 1)
      | _ => some (F32.nan neg, 3)
    | _ => some (F32.nan neg, 3)
  else none

/-- What `strtof (nptr, &endptr)` delivers: the returned value, the offset
`endptr - nptr`, and whether `errno` is set to `ERANGE` (otherwise `errno` is left
untouched). -/
structure StrtofResult where
  val : F32
  endOffset : Nat
  erange : Bool
  deriving DecidableEq, Repr

/-- Positive zero. -/
def F32.zero : F32 := F32.finite false 0 (-149)

/-- The `strtof` of the C library: skip white space, take an optional sign, then the
longest floating constant (hexadecimal, decimal, infinity or NaN) and round it to
binary32.  With no conversion the value is zero and `endptr = nptr`.  `errno` becomes
`ERANGE` on overflow (the value is then infinite) and on an inexact tiny result. -/
def strtof (nptr : String) : StrtofResult :=
  let cs := nptr.data
  let ws := (cs.takeWhile isspace).length
  let sg := parseSign (cs.dropWhile isspace)
  let number :=
    match parseHex sg.2.2 with
    | some q => some q
    | none => parseDecimal sg.2.2
  match number with
  | some q =>
    let r := roundF32 sg.1 q.1 q.2.1
    ⟨r.val, ws + sg.2.1 + q.2.2, r.overflow || r.underflow⟩
  | none =>
    match parseSpecial sg.1 sg.2.2 with
    | some v => ⟨v.1, ws + sg.2.1 + v.2, false⟩
    | none => ⟨F32.zero, 0, false⟩

/-! ## Stream output of floats: `ss << float`

With the default flags of a `std::stringstream` (precision 6, no `floatfield`) the
value is converted as by `printf ("%g")`, with six significant digits. -/

/-- The number of times `d` can be multiplied by ten without exceeding `n`. -/
def decExpUp : Nat → Nat → Nat → Nat
  | 0, _, _ => 0
  | fuel + 1, n, d => if 10 * d ≤ n then decExpUp fuel n (10 * d) + 1 else 0

/-- The number of times `n` must be multiplied by ten to reach `d`, for `0 < n < d`. -/
def decExpDown : Nat → Nat → Nat → Nat
  | 0, _, _ => 0
  | fuel + 1, n, d => if d ≤ 10 * n then 1 else decExpDown fuel (10 * n) d + 1

/-- The decimal exponent `⌊log₁₀ (n / d)⌋` of a positive fraction. -/
def decExp (n d : Nat) : Int :=
  if d ≤ n then Int.ofNat (decExpUp n n d) else - Int.ofNat (decExpDown d n d)

/-- Remove the trailing zeros of a digit sequence. -/
def stripZeros (ds : List Char) : List Char :=
  (ds.reverse.dropWhile (fun c => c == '0')).reverse

/-- Integer digits and fraction digits joined, the radix character only when a fraction
digit remains. -/
def joinFraction (ip fp : List Char) : List Char :=
  if (stripZeros fp).isEmpty then ip else ip ++ '.' :: stripZeros fp

/-- The exponent suffix of the scientific style: sign and at least two digits. -/
def expSuffix (x : Int) : List Char :=
  let a := natDigits x.natAbs
  'e' :: (if x < 0 then '-' else '+') :: (if a.length < 2 then '0' :: a else a)

/-- The `%g` text (precision 6) of the positive fraction `n / d`. -/
def showPositive (n d : Nat) : List Char :=
  let x0 := decExp n d
  let s := scaled 1 10 (5 - x0)
  let r := roundHalfEven (n * s.1) (d * s.2)
  let x := if r = 10 ^ 6 then x0 + 1 else x0
  let ds := natDigits (if r = 10 ^ 6 then 10 ^ 5 else r)
  if x < -4 ∨ 6 ≤ x then
    joinFraction (ds.take 1) (ds.drop 1) ++ expSuffix x
  else if 0 ≤ x then
    joinFraction (ds.take (x.toNat + 1)) (ds.drop (x.toNat + 1))
  else
    joinFraction ['0'] (List.replicate ((-x).toNat - 1) '0' ++ ds)

/-- The text written by `ss << f` for a `float`. -/
def showFloat : F32 → String
  | F32.inf neg => if neg then "-inf" else "inf"
  | F32.nan neg => if neg then "-nan" else "nan"
  | F32.finite neg m e =>
    let body :=
      if m = 0 then ['0']
      else
        let q := scaled m 2 e
        showPositive q.1 q.2
    ⟨if neg then '-' :: body else body⟩

/-! ## Program state -/

/-- The `struct Value` of the source. -/
structure Value where
  id : Int
  temp : F32
  timestamp : Int
  deriving DecidableEq, Repr

/-- The `typedef std::vector<Value> ValueList` of the source. -/
abbrev ValueList := List Value

/-- A `pthread_mutex_t` together with a record of the calls made on it. -/
structure Mutex where
  held : Bool
  lockCalls : Nat
  unlockCalls : Nat
  /-- calls of `pthread_mutex_unlock` made while the mutex was not held -/
  unlocksNotHeld : Nat
  deriving DecidableEq, Repr

/-- A freshly initialised mutex (`pthread_mutex_init`). -/
def Mutex.init : Mutex := ⟨false, 0, 0, 0⟩

/-- The call `pthread_mutex_lock (m)` once it has returned: the caller holds the mutex. -/
def pthread_mutex_lock (m : Mutex) : Mutex :=
  { m with held := true, lockCalls := m.lockCalls + 1 }

/-- The call `pthread_mutex_unlock (m)`.  The mutex is free afterwards; a call made
while the mutex is not held is counted in `unlocksNotHeld`. -/
def pthread_mutex_unlock (m : Mutex) : Mutex :=
  { held := false
    lockCalls := m.lockCalls
    unlockCalls := m.unlockCalls + 1
    unlocksNotHeld := if m.held then m.unlocksNotHeld else m.unlocksNotHeld + 1 }

/-- The constructor of the class `MutexLocker`: it locks the mutex. -/
def MutexLocker.construct (mtx : Mutex) : Mutex := pthread_mutex_lock mtx

/-- The destructor of the class `MutexLocker`: it unlocks the mutex. -/
def MutexLocker.destruct (mtx : Mutex) : Mutex := pthread_mutex_unlock mtx

/-- The `struct Context` of the source.  The `std::set<int>` is the list of its
elements in iteration (ascending) order. -/
structure Context where
  watchedIds : List Int
  values : ValueList
  valueMutex : Mutex
  deriving DecidableEq, Repr

/-- One call of `syslog`: priority, format string and the rendered arguments. -/
structure LogEntry where
  priority : Nat
  format : String
  args : List String
  deriving DecidableEq, Repr

def LOG_ERR : Nat := 3
def LOG_NOTICE : Nat := 5
def LOG_INFO : Nat := 6
def LOG_DEBUG : Nat := 7

def EINTR : Int := 4
def ERANGE : Int := 34
def EOVERFLOW : Int := 75

/-- The largest value of a POSIX semaphore on Linux. -/
def SEM_VALUE_MAX : Nat := 2147483647

/-- The state of the process that the code under study reads and writes. -/
structure World where
  /-- the global `running` -/
  running : Bool
  /-- the value of the global `semaphore` -/
  semaphore : Nat
  /-- the `errno` of the thread on which the sensor callback runs -/
  errno : Int
  /-- the `context` of `main`, which the callback receives as `ctx` -/
  ctx : Context
  /-- the calls of `syslog`, oldest first -/
  syslog : List LogEntry
  /-- the arguments of the calls of `PostInfluxData`, oldest first -/
  posted : List String
  deriving DecidableEq, Repr

/-- The call `sem_post (&semaphore)`: new value and return code.  The call fails (with
`EOVERFLOW`) when the value cannot be incremented. -/
def sem_post (sem : Nat) : Nat × Int :=
  if sem < SEM_VALUE_MAX then (sem + 1, 0) else (sem, -1)

/-- The call `sem_wait (&semaphore)`.  `fail` is what the environment does to the
waiting thread: `some e` makes the call return `-1` with `errno = e` (`EINTR` when a
signal handler interrupts it).  Otherwise the call returns `0` after decrementing a
positive value; on a zero value the caller stays blocked (`none`).
The result is the new value, the return code and the `errno` that the call sets in the
calling thread (read by the caller only when the return code is negative). -/
def sem_wait (sem : Nat) (fail : Option Int) : Option (Nat × Int × Int) :=
  match fail with
  | some e => some (sem, -1, e)
  | none => if 0 < sem then some (sem - 1, 0, 0) else none

/-! ## The functions of `main.cc` -/

/-- The signal handler `stop`. -/
def stop (w : World) : World :=
  { w with running := false, semaphore := (sem_post w.semaphore).1 }

/-- The callback `SensorCb`.  The parameters `protocol`, `model`, `dataType` and
`callbackId` are not used by the body and are left out. -/
def SensorCb (w : World) (id : Int) (value : String) (timestamp : Int) : World :=
  let ctx := w.ctx
  if ctx.watchedIds.count id == 0 then
    { w with syslog := w.syslog ++
        [⟨LOG_DEBUG, "Ignoring measurement from sensor id %d", [showInt id]⟩] }
  else
    -- MutexLocker lock(&ctx->valueMutex);
    let m1 := MutexLocker.construct ctx.valueMutex
    let r := strtof value
    let errno1 := if r.erange then ERANGE else w.errno
    if errno1 == ERANGE || r.endOffset == 0 then
      -- return; the destructor of `lock` runs
      { w with errno := errno1, ctx := { ctx with valueMutex := MutexLocker.destruct m1 } }
    else
      let v : Value := { id := id, temp := r.val, timestamp := timestamp }
      let values := ctx.values ++ [v]
      let m2 := pthread_mutex_unlock m1
      let p := sem_post w.semaphore
      let failed := decide (p.2 < 0)
      -- the destructor of `lock` runs at the end of the function
      let m3 := MutexLocker.destruct m2
      { w with
        semaphore := p.1
        errno := if failed then EOVERFLOW else errno1
        ctx := { ctx with values := values, valueMutex := m3 }
        syslog := if failed then w.syslog ++ [⟨LOG_ERR, "Failed to post semaphore: %m", []⟩]
                  else w.syslog }

/-- The function `GetInfluxLine`; the `std::stringstream` is its accumulated text. -/
def GetInfluxLine (v : Value) : String :=
  let ss := ""
  let ss := ss ++ "temperature"
  let ss := ss ++ ",location=Jacuzzi"
  let ss := ss ++ ",serial=" ++ showInt v.id
  let ss := ss ++ ",source=Tellstick"
  let ss := ss ++ ",type=Pool\\ thermometer"
  let ss := ss ++ " value=" ++ showFloat v.temp
  let ss := ss ++ " " ++ showInt v.timestamp ++ "000000000"
  let ss := ss ++ "\n"
  ss

/-- The loop of `GetIdList`: remaining ids, current separator, text so far. -/
def GetIdListLoop : List Int → String → String → String
  | [], _, ss => ss
  | i :: rest, separator, ss => GetIdListLoop rest " " (ss ++ separator ++ showInt i)

/-- The overload `GetIdList (const std::set<int>&)`. -/
def GetIdListSet (set : List Int) : String := GetIdListLoop set "" ""

/-- The overload `GetIdList (const ValueList&)`. -/
def GetIdList (list : ValueList) : String := GetIdListLoop (list.map Value.id) "" ""

/-- The first call of libcurl that fails inside `PostInfluxData`, with the text of
`curl_easy_strerror` where the source logs it. -/
inductive CurlFailure where
  | easyInit (err : String)
  | slistAppend
  | setoptUrl (err : String)
  | setoptPostfields (err : String)
  | setoptPostfieldsize (err : String)
  | setoptHttpheader (err : String)
  | perform (err : String)
  deriving DecidableEq, Repr

/-- The function `PostInfluxData`: return code and the syslog lines it writes.  The
behaviour of libcurl is the parameter `curl` (`none`: every call succeeds). -/
def PostInfluxData (_values : String) (curl : Option CurlFailure) : Int × List LogEntry :=
  match curl with
  | none => (0, [])
  | some (CurlFailure.easyInit e) => (-1, [⟨LOG_ERR, "Failed to initialize curl_easy: %s", [e]⟩])
  | some CurlFailure.slistAppend => (-1, [⟨LOG_ERR, "Failed to create Content-Type header", []⟩])
  | some (CurlFailure.setoptUrl e) => (-1, [⟨LOG_ERR, "Failed to set CURLOPT_URL: %s", [e]⟩])
  | some (CurlFailure.setoptPostfields e) =>
    (-1, [⟨LOG_ERR, "Failed to set CURLOPT_POSTFIELDS: %s", [e]⟩])
  | some (CurlFailure.setoptPostfieldsize e) =>
    (-1, [⟨LOG_ERR, "Failed to set CURLOPT_POSTFIELDSIZE: %s", [e]⟩])
  | some (CurlFailure.setoptHttpheader e) =>
    (-1, [⟨LOG_ERR, "Failed to set CURLOPT_HTTPHEADER: %s", [e]⟩])
  | some (CurlFailure.perform e) => (-1, [⟨LOG_ERR, "Failed to POST: %s", [e]⟩])

/-! ## The flush loop of `main` -/

/-- The loop `while (it != values.end()) { ss << GetInfluxLine(*it); it = values.erase(it); }`
with `it = values.begin()`: the vector that is left and the text of `ss`. -/
def drainLoop : ValueList → String → ValueList × String
  | [], ss => ([], ss)
  | v :: rest, ss => drainLoop rest (ss ++ GetInfluxLine v)

/-- The conversion of a `size_t` to `int` (`const int valueCount = values.size()`). -/
def toInt32 (n : Nat) : Int :=
  (Int.ofNat ((n + 2 ^ 31) % 2 ^ 32)) - 2 ^ 31

/-- Where the main thread is in the loop `while (running) { ... }`.
`WAITING`: the loop condition held and the thread is in `sem_wait`.
`DRAINING`: `sem_wait` returned 0; the thread is about to lock the mutex, drain the
vector and encode it (the source encodes while it drains, so the encoding belongs here).
`POSTING`: the mutex is released and the thread is about to call `PostInfluxData`
with the text `ss`; `valueCount` and `idList` are the locals kept for the log line.
`TERMINATED`: the loop has been left. -/
inductive FlushState where
  | WAITING
  | DRAINING
  | POSTING (ss : String) (valueCount : Int) (idList : String)
  | TERMINATED
  deriving DecidableEq, Repr

/-- The loop condition `while (running)`: where the thread goes from the loop head. -/
def loopHead (w : World) : FlushState :=
  if w.running then FlushState.WAITING else FlushState.TERMINATED

/-- What the environment contributes to one step of the loop: the fate of `sem_wait`
and the behaviour of libcurl. -/
structure Env where
  waitFail : Option Int
  curl : Option CurlFailure
  deriving DecidableEq, Repr

/-- One step of the main thread.  `none`: no step is possible (the thread is blocked
in `sem_wait`, or the loop has terminated). -/
def flushStep (env : Env) (w : World) : FlushState → Option (World × FlushState)
  | FlushState.WAITING =>
    match sem_wait w.semaphore env.waitFail with
    | none => none
    | some (sem, rc, errno) =>
      if rc < 0 then
        if errno == EINTR then
          -- continue
          some (w, loopHead w)
        else
          -- break
          some ({ w with syslog := w.syslog ++
                    [⟨LOG_ERR, "Failed to wait on semaphore: %m", []⟩] },
                FlushState.TERMINATED)
      else
        some ({ w with semaphore := sem }, FlushState.DRAINING)
  | FlushState.DRAINING =>
    let m1 := pthread_mutex_lock w.ctx.valueMutex
    let valueCount := toInt32 w.ctx.values.length
    let idList := GetIdList w.ctx.values
    let d := drainLoop w.ctx.values ""
    let m2 := pthread_mutex_unlock m1
    some ({ w with ctx := { w.ctx with values := d.1, valueMutex := m2 } },
          FlushState.POSTING d.2 valueCount idList)
  | FlushState.POSTING ss valueCount idList =>
    let r := PostInfluxData ss env.curl
    let log :=
      if r.1 == 0 then
        [⟨LOG_NOTICE, "Posted %d values to influx db from sensor%s: %s",
          [showInt valueCount, if valueCount == 1 then "" else "s", idList]⟩]
      else []
    let w1 := { w with posted := w.posted ++ [ss], syslog := w.syslog ++ r.2 ++ log }
    some (w1, loopHead w1)
  | FlushState.TERMINATED => none

/-- The state of the whole system: the process state and the position of the main thread. -/
structure Sys where
  world : World
  pc : FlushState
  deriving DecidableEq, Repr

/-- One full iteration of the loop body taken from `WAITING` with a successful
`sem_wait`: acquire, drain and encode, post, and back to the loop head. -/
def flushIteration (curl : Option CurlFailure) (w : World) : Option Sys :=
  match flushStep ⟨none, curl⟩ w FlushState.WAITING with
  | some (w1, FlushState.DRAINING) =>
    match flushStep ⟨none, curl⟩ w1 FlushState.DRAINING with
    | some (w2, FlushState.POSTING ss n ids) =>
      match flushStep ⟨none, curl⟩ w2 (FlushState.POSTING ss n ids) with
      | some (w3, pc) => some ⟨w3, pc⟩
      | none => none
    | _ => none
  | _ => none

/-- The process state when `main` enters its loop: the semaphore was initialised to 0,
the mutex is fresh, the vector is empty and the start-up line has been logged. -/
def initWorld (watchedIds : List Int) : World :=
  { running := true
    semaphore := 0
    errno := 0
    ctx := { watchedIds := watchedIds, values := [], valueMutex := Mutex.init }
    syslog := [⟨LOG_INFO, "Init done, listening for sensor%s: %s",
                [if watchedIds.length == 1 then "" else "s", GetIdListSet watchedIds]⟩]
    posted := [] }

/-- The system when `main` first evaluates the loop condition. -/
def initSys (watchedIds : List Int) : Sys :=
  ⟨initWorld watchedIds, loopHead (initWorld watchedIds)⟩

/-! ## Definitions used to state the properties -/

/-- The last field of a line: the text between the final space and the newline that
ends the line.  `none` when the text does not end in a newline. -/
def lastField (line : String) : Option (List Char) :=
  match line.data.reverse with
  | '\n' :: r => some (r.takeWhile (fun c => c != ' ')).reverse
  | _ => none

/-- A non-empty sequence of decimal digits read as a natural number. -/
def readNat (ds : List Char) : Option Nat :=
  if ds.isEmpty || !ds.all Char.isDigit then none else some (digitsValue 10 ds)

/-- A decimal integer, with an optional leading `-`, read as an `Int`. -/
def readInt : List Char → Option Int
  | '-' :: ds => (readNat ds).map (fun n => - Int.ofNat n)
  | ds => (readNat ds).map Int.ofNat

/-- The reading with id 7, temperature 21.5 (`0xAC0000 * 2^-19`) and timestamp 1000. -/
def sampleValue : Value := ⟨7, F32.finite false 11272192 (-19), 1000⟩

/-- The encoding of a batch in the words of the specification: the lines of the
readings, one per reading, concatenated in the order of the sequence. -/
def encode : ValueList → String
  | [] => ""
  | v :: vs => GetInfluxLine v ++ encode vs

/-- The world after two accepted events of the same sensor with the same value text and
timestamp. -/
def twoEqualReadings : World :=
  SensorCb (SensorCb (initWorld [1]) 1 "20.1" 100) 1 "20.1" 100

/-- The world after one event that `strtof` rejects as out of range. -/
def afterRangeError : World := SensorCb (initWorld [1]) 1 "1e39" 100

/-- The world after an accepted event followed by the signal handler, while the main
thread has passed the loop condition. -/
def shutdownRace : World := stop (SensorCb (initWorld [1]) 1 "20.1" 100)

/-- The concatenation of the texts handed to `PostInfluxData`, oldest first. -/
def joinAll : List String → String
  | [] => ""
  | t :: ts => t ++ joinAll ts

/-- The states of the system reachable from the start of the loop by atomic steps: an
invocation of `SensorCb`, one iteration of the flush loop taken from `WAITING`, and the
signal handler `stop`.  The last index is the history of the readings that the callback
has appended to the vector so far. -/
inductive Reachable (watchedIds : List Int) : Sys → ValueList → Prop where
  | init : Reachable watchedIds (initSys watchedIds) []
  | sensor (s : Sys) (appended : ValueList) (id : Int) (value : String) (timestamp : Int) :
      Reachable watchedIds s appended →
      Reachable watchedIds ⟨SensorCb s.world id value timestamp, s.pc⟩
        (appended ++
          (SensorCb s.world id value timestamp).ctx.values.drop s.world.ctx.values.length)
  | flush (s s' : Sys) (appended : ValueList) (curl : Option CurlFailure) :
      Reachable watchedIds s appended →
      s.pc = FlushState.WAITING →
      flushIteration curl s.world = some s' →
      Reachable watchedIds s' appended
  | stop (s : Sys) (appended : ValueList) :
      Reachable watchedIds s appended →
      Reachable watchedIds ⟨stop s.world, s.pc⟩ appended

/-- The system after one accepted event and one iteration of the loop. -/
def drainedSys : Sys :=
  match flushIteration none (SensorCb (initWorld [1]) 1 "20.1" 100) with
  | some s => s
  | none => initSys [1]

/-! ## Lemmas -/

theorem digitChar_isDigit (d : Nat) (h : d < 10) : (digitChar d).isDigit = true := by
  interval_cases d <;> decide

theorem xdigitVal_digitChar (d : Nat) (h : d < 10) : xdigitVal (digitChar d) = d := by
  interval_cases d <;> decide

theorem digitChar_ne_minus (d : Nat) (h : d < 10) : digitChar d ≠ '-' := by
  interval_cases d <;> decide

theorem isDigit_ne_space (c : Char) (h : c.isDigit = true) : (c != ' ') = true := by
  rcases Decidable.em (c = ' ') with rfl | hc
  · exact absurd h (by decide)
  · simpa using hc

theorem foldl_digits (base : Nat) (ds : List Char) (a : Nat) :
    ds.foldl (fun a c => base * a + xdigitVal c) a
      = a * base ^ ds.length + digitsValue base ds := by
  induction ds generalizing a with
  | nil => simp [digitsValue]
  | cons c cs ih =>
    simp only [digitsValue, List.foldl_cons, List.length_cons]
    rw [ih (base * a + xdigitVal c), ih (base * 0 + xdigitVal c)]
    simp only [digitsValue]
    ring

theorem digitsValue_cons (base : Nat) (c : Char) (ds : List Char) :
    digitsValue base (c :: ds) = xdigitVal c * base ^ ds.length + digitsValue base ds := by
  have h := foldl_digits base ds (base * 0 + xdigitVal c)
  simp only [digitsValue, List.foldl_cons] at h ⊢
  rw [h]; simp

theorem digitsValue_append (base : Nat) (xs ys : List Char) :
    digitsValue base (xs ++ ys)
      = digitsValue base xs * base ^ ys.length + digitsValue base ys := by
  have h := foldl_digits base ys (digitsValue base xs)
  simp only [digitsValue, List.foldl_append] at h ⊢
  exact h

theorem natDigitsAux_spec (fuel : Nat) :
    ∀ (n : Nat) (acc : List Char), n < fuel → (∀ c ∈ acc, c.isDigit = true) →
      (∀ c ∈ natDigitsAux fuel n acc, c.isDigit = true) ∧
      (∃ d, d < 10 ∧ ∃ tl, natDigitsAux fuel n acc = digitChar d :: tl) ∧
      digitsValue 10 (natDigitsAux fuel n acc) = n * 10 ^ acc.length + digitsValue 10 acc := by
  induction fuel with
  | zero => intro n acc h; omega
  | succ f ih =>
    intro n acc hn hacc
    have hd : n % 10 < 10 := Nat.mod_lt _ (by decide)
    have hacc2 : ∀ c ∈ digitChar (n % 10) :: acc, c.isDigit = true := by
      intro c hc
      rcases List.mem_cons.mp hc with rfl | hc
      · exact digitChar_isDigit _ hd
      · exact hacc c hc
    by_cases h0 : n / 10 = 0
    · simp only [natDigitsAux, h0, if_true]
      refine ⟨hacc2, ⟨n % 10, hd, acc, rfl⟩, ?_⟩
      rw [digitsValue_cons, xdigitVal_digitChar _ hd]
      have : n % 10 = n := by omega
      rw [this]
    · simp only [natDigitsAux, h0, if_false]
      have hlt : n / 10 < f := by omega
      obtain ⟨h1, h2, h3⟩ := ih (n / 10) (digitChar (n % 10) :: acc) hlt hacc2
      refine ⟨h1, h2, ?_⟩
      rw [h3, digitsValue_cons, xdigitVal_digitChar _ hd, List.length_cons, pow_succ]
      have hn' : n = 10 * (n / 10) + n % 10 := (Nat.div_add_mod n 10).symm
      generalize n / 10 = q at *
      generalize n % 10 = r at *
      subst hn'
      ring

theorem natDigits_isDigit (n : Nat) : ∀ c ∈ natDigits n, c.isDigit = true :=
  (natDigitsAux_spec (n + 1) n [] (by omega) (by simp)).1

theorem natDigits_head (n : Nat) : ∃ d, d < 10 ∧ ∃ tl, natDigits n = digitChar d :: tl :=
  (natDigitsAux_spec (n + 1) n [] (by omega) (by simp)).2.1

theorem digitsValue_natDigits (n : Nat) : digitsValue 10 (natDigits n) = n := by
  have h := (natDigitsAux_spec (n + 1) n [] (by omega) (by simp)).2.2
  simpa [natDigits, digitsValue] using h

theorem readNat_digits (ds zs : List Char) (hne : ds ≠ [])
    (hds : ∀ c ∈ ds, c.isDigit = true) (hzs : ∀ c ∈ zs, c.isDigit = true) :
    readNat (ds ++ zs) = some (digitsValue 10 ds * 10 ^ zs.length + digitsValue 10 zs) := by
  have hall : (ds ++ zs).all Char.isDigit = true := by
    rw [List.all_eq_true]
    intro c hc
    rcases List.mem_append.mp hc with h | h
    · exact hds c h
    · exact hzs c h
  have hne2 : (ds ++ zs).isEmpty = false := by
    cases ds with
    | nil => exact absurd rfl hne
    | cons a l => rfl
  simp only [readNat, hall, hne2, Bool.not_true, Bool.or_self, digitsValue_append]
  rfl

/-- Reading back the text of an `int` followed by digits `zs`. -/
theorem readInt_showInt_append (i : Int) (zs : List Char)
    (hzs : ∀ c ∈ zs, c.isDigit = true) (hz0 : digitsValue 10 zs = 0) :
    readInt ((showInt i).data ++ zs) = some (i * 10 ^ zs.length) := by
  cases i with
  | ofNat n =>
    obtain ⟨d, hd, tl, htl⟩ := natDigits_head n
    have hr := readNat_digits (natDigits n) zs (by rw [htl]; simp) (natDigits_isDigit n) hzs
    simp only [showInt]
    have hstep : readInt (natDigits n ++ zs) = (readNat (natDigits n ++ zs)).map Int.ofNat := by
      rw [htl]
      have hm := digitChar_ne_minus d hd
      simp only [List.cons_append]
      unfold readInt
      split
      · next heq => exact absurd (List.cons.inj heq).1 hm
      · rfl
    rw [hstep, hr, digitsValue_natDigits, hz0]
    simp
  | negSucc n =>
    obtain ⟨d, _, tl, htl⟩ := natDigits_head (n + 1)
    have hr := readNat_digits (natDigits (n + 1)) zs (by rw [htl]; simp)
      (natDigits_isDigit (n + 1)) hzs
    simp only [showInt, List.cons_append, readInt]
    rw [hr, digitsValue_natDigits, hz0]
    simp only [Option.map_some', add_zero, Option.some.injEq]
    rw [Int.negSucc_eq]
    simp only [Int.ofNat_eq_coe]
    push_cast
    ring

theorem takeWhile_append_stop {α : Type} (p : α → Bool) (xs : List α) (a : α) (ys : List α)
    (hxs : ∀ x ∈ xs, p x = true) (ha : p a = false) :
    (xs ++ a :: ys).takeWhile p = xs := by
  induction xs with
  | nil => simp [List.takeWhile, ha]
  | cons x xs ih =>
    have hx : p x = true := hxs x (List.mem_cons_self _ _)
    have h := ih (fun y hy => hxs y (List.mem_cons_of_mem _ hy))
    simp only [List.cons_append, List.takeWhile_cons, hx, if_true, h]

/-- The shape of the text of `GetInfluxLine`. -/
theorem GetInfluxLine_eq (v : Value) :
    GetInfluxLine v
      = "temperature,location=Jacuzzi,serial=" ++ showInt v.id
        ++ ",source=Tellstick,type=Pool\\ thermometer value=" ++ showFloat v.temp
        ++ " " ++ showInt v.timestamp ++ "000000000" ++ "\n" := by
  simp only [GetInfluxLine, String.append_assoc, String.empty_append]
  rfl

theorem drainLoop_eq (vs : ValueList) (ss : String) :
    drainLoop vs ss = ([], ss ++ encode vs) := by
  induction vs generalizing ss with
  | nil => simp [drainLoop, encode]
  | cons v vs ih => simp [drainLoop, encode, ih, String.append_assoc]

/-- Every effect of one loop iteration that starts with a successful `sem_wait`. -/
theorem flushIteration_spec (curl : Option CurlFailure) (w : World) (h : 0 < w.semaphore) :
    ∃ s, flushIteration curl w = some s
      ∧ s.world.ctx.values = []
      ∧ s.world.ctx = { w.ctx with
          values := []
          valueMutex := pthread_mutex_unlock (pthread_mutex_lock w.ctx.valueMutex) }
      ∧ s.world.posted = w.posted ++ [encode w.ctx.values]
      ∧ s.world.semaphore = w.semaphore - 1
      ∧ s.world.running = w.running
      ∧ s.world.errno = w.errno
      ∧ s.pc = loopHead w := by
  simp [flushIteration, flushStep, sem_wait, h, drainLoop_eq, loopHead]

theorem SensorCb_unwatched (w : World) (id : Int) (value : String) (timestamp : Int)
    (h : id ∉ w.ctx.watchedIds) :
    SensorCb w id value timestamp
      = { w with syslog := w.syslog ++
            [⟨LOG_DEBUG, "Ignoring measurement from sensor id %d", [showInt id]⟩] } := by
  have hc : w.ctx.watchedIds.count id = 0 := List.count_eq_zero.mpr h
  simp [SensorCb, hc]

theorem SensorCb_rejected (w : World) (id : Int) (value : String) (timestamp : Int)
    (hw : id ∈ w.ctx.watchedIds)
    (hbad : (strtof value).endOffset = 0 ∨ (strtof value).erange = true ∨ w.errno = ERANGE) :
    SensorCb w id value timestamp
      = { w with
          errno := if (strtof value).erange then ERANGE else w.errno
          ctx := { w.ctx with
            valueMutex := pthread_mutex_unlock (pthread_mutex_lock w.ctx.valueMutex) } } := by
  have hc : ¬ w.ctx.watchedIds.count id = 0 := fun h0 => (List.count_eq_zero.mp h0) hw
  have hcond : ((if (strtof value).erange then ERANGE else w.errno) == ERANGE
      || (strtof value).endOffset == 0) = true := by
    rcases hbad with h | h | h
    · simp [h]
    · simp [h]
    · by_cases he : (strtof value).erange = true <;> simp [he, h]
  simp only [SensorCb, beq_iff_eq, hc, if_false]
  rw [if_pos hcond]
  rfl

/-- The callback on a watched id, with `errno` not `ERANGE` on entry and a text from
which `strtof` converts a number in range: one reading is appended, and the semaphore
is posted. -/
theorem SensorCb_accepted (w : World) (id : Int) (value : String) (timestamp : Int)
    (hw : id ∈ w.ctx.watchedIds) (herrno : w.errno ≠ ERANGE)
    (hconv : (strtof value).endOffset ≠ 0) (hrange : (strtof value).erange = false) :
    (SensorCb w id value timestamp).ctx.values
        = w.ctx.values ++ [⟨id, (strtof value).val, timestamp⟩]
    ∧ (SensorCb w id value timestamp).semaphore = (sem_post w.semaphore).1
    ∧ (SensorCb w id value timestamp).ctx.valueMutex
        = pthread_mutex_unlock (pthread_mutex_unlock (pthread_mutex_lock w.ctx.valueMutex)) := by
  have hc : ¬ w.ctx.watchedIds.count id = 0 := fun h0 => (List.count_eq_zero.mp h0) hw
  have hcond : ¬ (((if (strtof value).erange then ERANGE else w.errno) == ERANGE
      || (strtof value).endOffset == 0) = true) := by
    simp [hrange, herrno, hconv]
  simp only [SensorCb, beq_iff_eq, hc, if_false]
  rw [if_neg hcond]
  exact ⟨rfl, rfl, rfl⟩

/-- Whatever the event, the callback leaves the vector as it is or appends to it, and
never lowers the semaphore; a callback that extends the vector leaves the semaphore
positive. -/
theorem SensorCb_values (w : World) (id : Int) (value : String) (timestamp : Int) :
    ((SensorCb w id value timestamp).ctx.values = w.ctx.values
        ∧ (SensorCb w id value timestamp).semaphore = w.semaphore
      ∨ (∃ v, (SensorCb w id value timestamp).ctx.values = w.ctx.values ++ [v])
        ∧ 0 < (SensorCb w id value timestamp).semaphore)
    ∧ (SensorCb w id value timestamp).running = w.running
    ∧ (SensorCb w id value timestamp).posted = w.posted := by
  by_cases hc : w.ctx.watchedIds.count id = 0
  · simp [SensorCb, hc]
  · by_cases hcond : ((if (strtof value).erange then ERANGE else w.errno) == ERANGE
        || (strtof value).endOffset == 0) = true
    · simp only [SensorCb, beq_iff_eq, hc, if_false]
      rw [if_pos hcond]
      simp
    · simp only [SensorCb, beq_iff_eq, hc, if_false]
      rw [if_neg hcond]
      refine ⟨Or.inr ⟨⟨_, rfl⟩, ?_⟩, rfl, rfl⟩
      show 0 < (sem_post w.semaphore).1
      unfold sem_post SEM_VALUE_MAX
      split
      · exact Nat.succ_pos _
      · next h => exact Nat.lt_of_lt_of_le (by decide) (Nat.le_of_not_lt h)

theorem joinAll_snoc (ts : List String) (t : String) : joinAll (ts ++ [t]) = joinAll ts ++ t := by
  induction ts with
  | nil => simp [joinAll]
  | cons x xs ih => simp [joinAll, ih, String.append_assoc]

theorem encode_append (xs ys : ValueList) : encode (xs ++ ys) = encode xs ++ encode ys := by
  induction xs with
  | nil => simp [encode]
  | cons x xs ih => simp [encode, ih, String.append_assoc]

theorem flushIteration_blocked (curl : Option CurlFailure) (w : World) (h : w.semaphore = 0) :
    flushIteration curl w = none := by
  simp [flushIteration, flushStep, sem_wait, h]

theorem sem_post_pos (sem : Nat) : 0 < (sem_post sem).1 := by
  unfold sem_post SEM_VALUE_MAX
  split
  · exact Nat.succ_pos _
  · next h => exact Nat.lt_of_lt_of_le (by decide) (Nat.le_of_not_lt h)

/-- The invariant of the reachable states: a non-empty vector comes with a positive
semaphore, and the texts posted so far followed by the encoding of the vector are the
encoding of everything that was appended. -/
theorem Reachable_invariant (watchedIds : List Int) (s : Sys) (appended : ValueList)
    (h : Reachable watchedIds s appended) :
    (s.world.ctx.values ≠ [] → 0 < s.world.semaphore)
    ∧ joinAll s.world.posted ++ encode s.world.ctx.values = encode appended := by
  induction h with
  | init => simp [initSys, initWorld, joinAll, encode]
  | sensor s a id value timestamp _ ih =>
    obtain ⟨ih1, ih2⟩ := ih
    obtain ⟨hv, _, hp⟩ := SensorCb_values s.world id value timestamp
    rcases hv with ⟨hv, hs⟩ | ⟨⟨v, hv⟩, hs⟩
    · refine ⟨?_, ?_⟩
      · intro hne
        show 0 < (SensorCb s.world id value timestamp).semaphore
        rw [hs]
        exact ih1 (by simpa [hv] using hne)
      · show joinAll (SensorCb s.world id value timestamp).posted
            ++ encode (SensorCb s.world id value timestamp).ctx.values = _
        rw [hp, hv, List.drop_length, List.append_nil]
        exact ih2
    · refine ⟨fun _ => hs, ?_⟩
      show joinAll (SensorCb s.world id value timestamp).posted
            ++ encode (SensorCb s.world id value timestamp).ctx.values = _
      rw [hp, hv, List.drop_left, encode_append, encode_append, ← ih2, String.append_assoc]
  | flush s s' a curl _ _ hf ih =>
    obtain ⟨ih1, ih2⟩ := ih
    by_cases hsem : 0 < s.world.semaphore
    · obtain ⟨t, ht, hv, _, hp, _⟩ := flushIteration_spec curl s.world hsem
      rw [hf] at ht
      cases ht
      refine ⟨fun hne => absurd hv hne, ?_⟩
      rw [hp, hv, joinAll_snoc]
      simpa [encode] using ih2
    · have := flushIteration_blocked curl s.world (by omega)
      rw [hf] at this
      cases this
  | stop s a _ ih =>
    obtain ⟨_, ih2⟩ := ih
    exact ⟨fun _ => sem_post_pos _, ih2⟩

theorem showInt_no_space (i : Int) : ∀ c ∈ (showInt i).data, (c != ' ') = true := by
  cases i with
  | ofNat n =>
    intro c hc
    exact isDigit_ne_space c (natDigits_isDigit n c hc)
  | negSucc n =>
    intro c hc
    simp only [showInt] at hc
    rcases List.mem_cons.mp hc with rfl | hc
    · decide
    · exact isDigit_ne_space c (natDigits_isDigit (n + 1) c hc)

theorem lastField_of_line (pre : String) (body : List Char)
    (hbody : ∀ c ∈ body, (c != ' ') = true) :
    lastField (pre ++ " " ++ ⟨body⟩ ++ "\n") = some body := by
  have hdata : (pre ++ " " ++ (⟨body⟩ : String) ++ "\n").data
      = pre.data ++ ' ' :: (body ++ ['\n']) := by
    simp [String.data_append]
  have hrev : (pre.data ++ ' ' :: (body ++ ['\n'])).reverse
      = '\n' :: (body.reverse ++ ' ' :: pre.data.reverse) := by
    simp
  unfold lastField
  rw [hdata, hrev]
  simp only
  rw [takeWhile_append_stop _ _ _ _ (fun c hc => hbody c (List.mem_reverse.mp hc)) (by decide)]
  simp

/-! ## The claims -/

/-- C1: for every reading, `GetInfluxLine` returns exactly the fixed tags, the decimal
id, the default rendering of the float, a space, the decimal timestamp, nine zeros and
a newline; for id 7, temperature 21.5 (the value `strtof` gives for "21.5") and
timestamp 1000 it is the line of the specification. -/
theorem C1_GetInfluxLine_format (v : Value) :
    GetInfluxLine v
        = "temperature,location=Jacuzzi,serial=" ++ showInt v.id
          ++ ",source=Tellstick,type=Pool\\ thermometer value=" ++ showFloat v.temp
          ++ " " ++ showInt v.timestamp ++ "000000000" ++ "\n"
    ∧ sampleValue = ⟨7, (strtof "21.5").val, 1000⟩
    ∧ GetInfluxLine sampleValue
        = "temperature,location=Jacuzzi,serial=7,source=Tellstick,type=Pool\\ thermometer value=21.5 1000000000000\n" := by
  refine ⟨GetInfluxLine_eq v, by decide, by decide⟩

/-- C2: for every reading, whatever the sign of its timestamp, the last field of the
line of `GetInfluxLine`, read as a decimal integer, is the timestamp times 10^9. -/
theorem C2_timestamp_nanoseconds (v : Value) :
    (lastField (GetInfluxLine v)).bind readInt = some (v.timestamp * 1000000000) := by
  have hz : ∀ c ∈ "000000000".data, c.isDigit = true := by decide
  have hbody : ∀ c ∈ (showInt v.timestamp).data ++ "000000000".data, (c != ' ') = true := by
    intro c hc
    rcases List.mem_append.mp hc with h | h
    · exact showInt_no_space _ c h
    · exact isDigit_ne_space c (hz c h)
  have hline : GetInfluxLine v
      = ("temperature,location=Jacuzzi,serial=" ++ showInt v.id
          ++ ",source=Tellstick,type=Pool\\ thermometer value=" ++ showFloat v.temp)
        ++ " " ++ ⟨(showInt v.timestamp).data ++ "000000000".data⟩ ++ "\n" := by
    rw [GetInfluxLine_eq]
    apply String.ext
    simp [String.data_append]
  rw [hline, lastField_of_line _ _ hbody]
  have h := readInt_showInt_append v.timestamp "000000000".data hz (by decide)
  simpa using h

/-- C3: in a flush iteration the text handed to `PostInfluxData` is the concatenation,
in insertion order, of the lines of the readings held in the vector, one line per
reading; for an empty vector it is the empty text. -/
theorem C3_flush_posts_encoding (curl : Option CurlFailure) (w : World)
    (h : 0 < w.semaphore) :
    ∃ s, flushIteration curl w = some s
      ∧ s.world.posted = w.posted ++ [encode w.ctx.values]
      ∧ (w.ctx.values = [] → s.world.posted = w.posted ++ [""]) := by
  obtain ⟨s, hs, _, _, hp, _⟩ := flushIteration_spec curl w h
  refine ⟨s, hs, hp, ?_⟩
  intro hv
  rw [hp, hv]
  rfl

/-- C3 at a concrete input: two accepted readings of the same sensor, equal in every field, are pending. -/
theorem C3_flush_posts_encoding_witness :
    0 < twoEqualReadings.semaphore
    ∧ twoEqualReadings.ctx.values.length = 2
    ∧ ∃ s, flushIteration none twoEqualReadings = some s
      ∧ s.world.posted = twoEqualReadings.posted ++ [encode twoEqualReadings.ctx.values]
      ∧ (twoEqualReadings.ctx.values = [] → s.world.posted = twoEqualReadings.posted ++ [""]) :=
  ⟨by decide, by decide, C3_flush_posts_encoding none twoEqualReadings (by decide)⟩

/-- C4: for an event whose sensor id is not in the watch set, whatever its value text
and timestamp, `SensorCb` leaves the context (the vector included) and the semaphore
unchanged. -/
theorem C4_unwatched_ignored (w : World) (id : Int) (value : String) (timestamp : Int)
    (h : id ∉ w.ctx.watchedIds) :
    (SensorCb w id value timestamp).ctx = w.ctx
    ∧ (SensorCb w id value timestamp).semaphore = w.semaphore := by
  rw [SensorCb_unwatched w id value timestamp h]
  exact ⟨rfl, rfl⟩

/-- C4 at a concrete input: sensor 3 reports while the watch set is {1, 2} and one reading is pending. -/
theorem C4_unwatched_ignored_witness :
    (3 : Int) ∉ (SensorCb (initWorld [1, 2]) 1 "20.1" 100).ctx.watchedIds
    ∧ (SensorCb (SensorCb (initWorld [1, 2]) 1 "20.1" 100) 3 "99.9" 100).ctx
        = (SensorCb (initWorld [1, 2]) 1 "20.1" 100).ctx
    ∧ (SensorCb (SensorCb (initWorld [1, 2]) 1 "20.1" 100) 3 "99.9" 100).semaphore
        = (SensorCb (initWorld [1, 2]) 1 "20.1" 100).semaphore :=
  ⟨by decide, C4_unwatched_ignored (SensorCb (initWorld [1, 2]) 1 "20.1" 100) 3 "99.9" 100
    (by decide)⟩

/-- C5, as stated, fails: the watched event with the value text "21.5abc" (a number
followed by trailing garbage) is accepted; `strtof` converts the four characters
"21.5", and the reading 21.5 is appended and the semaphore posted. -/
theorem C5_trailing_garbage_is_accepted :
    (1 : Int) ∈ (initWorld [1]).ctx.watchedIds
    ∧ strtof "21.5abc" = ⟨F32.finite false 11272192 (-19), 4, false⟩
    ∧ (SensorCb (initWorld [1]) 1 "21.5abc" 100).ctx.values
        = [⟨1, F32.finite false 11272192 (-19), 100⟩]
    ∧ (SensorCb (initWorld [1]) 1 "21.5abc" 100).ctx.values ≠ (initWorld [1]).ctx.values
    ∧ (initWorld [1]).semaphore = 0
    ∧ (SensorCb (initWorld [1]) 1 "21.5abc" 100).semaphore = 1 := by
  decide

/-- C5, amended: for an event with a watched sensor id whose value text is empty, or
from which `strtof` converts nothing, or whose number is out of range (`strtof` reports
`ERANGE`), `SensorCb` appends no reading: the vector and the semaphore are unchanged. -/
theorem C5_malformed_rejected (w : World) (id : Int) (value : String) (timestamp : Int)
    (hw : id ∈ w.ctx.watchedIds)
    (hbad : value = "" ∨ (strtof value).endOffset = 0 ∨ (strtof value).erange = true) :
    (SensorCb w id value timestamp).ctx.values = w.ctx.values
    ∧ (SensorCb w id value timestamp).semaphore = w.semaphore := by
  have hbad2 : (strtof value).endOffset = 0 ∨ (strtof value).erange = true
      ∨ w.errno = ERANGE := by
    rcases hbad with h | h | h
    · subst h
      exact Or.inl (by decide)
    · exact Or.inl h
    · exact Or.inr (Or.inl h)
  rw [SensorCb_rejected w id value timestamp hw hbad2]
  exact ⟨rfl, rfl⟩

/-- C5 (amended) at concrete inputs: the value texts "1e39", "abc" and the empty text on the watched sensor 1. -/
theorem C5_malformed_rejected_witness :
    ((1 : Int) ∈ (initWorld [1]).ctx.watchedIds
      ∧ (strtof "1e39").erange = true
      ∧ (SensorCb (initWorld [1]) 1 "1e39" 100).ctx.values = (initWorld [1]).ctx.values
      ∧ (SensorCb (initWorld [1]) 1 "1e39" 100).semaphore = (initWorld [1]).semaphore)
    ∧ ((strtof "abc").endOffset = 0
      ∧ (SensorCb (initWorld [1]) 1 "abc" 100).ctx.values = (initWorld [1]).ctx.values
      ∧ (SensorCb (initWorld [1]) 1 "abc" 100).semaphore = (initWorld [1]).semaphore)
    ∧ ((SensorCb (initWorld [1]) 1 "" 100).ctx.values = (initWorld [1]).ctx.values
      ∧ (SensorCb (initWorld [1]) 1 "" 100).semaphore = (initWorld [1]).semaphore) :=
  ⟨⟨by decide, by decide,
      C5_malformed_rejected (initWorld [1]) 1 "1e39" 100 (by decide) (Or.inr (Or.inr (by decide)))⟩,
    ⟨by decide,
      C5_malformed_rejected (initWorld [1]) 1 "abc" 100 (by decide) (Or.inr (Or.inl (by decide)))⟩,
    C5_malformed_rejected (initWorld [1]) 1 "" 100 (by decide) (Or.inl rfl)⟩

/-- C6, evaluated where the code departs from it: the text "20.1" is well formed and in
range, and on a fresh process the watched event (1, "20.1", 101) appends its reading and
posts the semaphore; after the event (1, "1e39", 100) has left `errno = ERANGE`, the
same event is dropped: nothing is appended and the semaphore is not posted. -/
theorem C6_stale_errno_drops_reading :
    strtof "20.1" = ⟨F32.finite false 10538189 (-19), 4, false⟩
    ∧ (SensorCb (initWorld [1]) 1 "20.1" 101).ctx.values
        = [⟨1, F32.finite false 10538189 (-19), 101⟩]
    ∧ (SensorCb (initWorld [1]) 1 "20.1" 101).semaphore = 1
    ∧ afterRangeError.errno = ERANGE
    ∧ afterRangeError.ctx.values = []
    ∧ afterRangeError.semaphore = 0
    ∧ (1 : Int) ∈ afterRangeError.ctx.watchedIds
    ∧ (SensorCb afterRangeError 1 "20.1" 101).ctx.values = []
    ∧ (SensorCb afterRangeError 1 "20.1" 101).semaphore = 0 := by
  decide

/-- C7: whatever the vector holds and whether the post succeeds or fails, after one
iteration of the flush loop the vector is empty; the outcome of the post changes
neither the context, the semaphore nor the position of the loop (a failed post puts
nothing back); and the iteration that follows hands the empty text to
`PostInfluxData`: no reading of the batch is sent again. -/
theorem C7_flush_discards_batch (curl : Option CurlFailure) (w : World)
    (h : 0 < w.semaphore) :
    ∃ s, flushIteration curl w = some s
      ∧ s.world.ctx.values = []
      ∧ (∃ t, flushIteration none w = some t
          ∧ s.world.ctx = t.world.ctx ∧ s.world.semaphore = t.world.semaphore
          ∧ s.world.posted = t.world.posted ∧ s.pc = t.pc)
      ∧ ∀ curl2 s2, flushIteration curl2 s.world = some s2 →
          s2.world.ctx.values = []
          ∧ s2.world.posted = w.posted ++ [encode w.ctx.values, ""] := by
  obtain ⟨s, hs, hv, hctx, hp, hsm, _, _, hpc⟩ := flushIteration_spec curl w h
  obtain ⟨t, ht, _, hctx0, hp0, hsm0, _, _, hpc0⟩ := flushIteration_spec none w h
  refine ⟨s, hs, hv, ⟨t, ht, ?_, ?_, ?_, ?_⟩, ?_⟩
  · rw [hctx, hctx0]
  · rw [hsm, hsm0]
  · rw [hp, hp0]
  · rw [hpc, hpc0]
  intro curl2 s2 h2
  by_cases hsem : 0 < s.world.semaphore
  · obtain ⟨u, hu, hv2, _, hp2, _⟩ := flushIteration_spec curl2 s.world hsem
    rw [h2] at hu
    cases hu
    refine ⟨hv2, ?_⟩
    rw [hp2, hp, hv]
    simp [encode]
  · have := flushIteration_blocked curl2 s.world (by omega)
    rw [h2] at this
    cases this

/-- C7 at a concrete input: two readings are pending and the transfer fails. -/
theorem C7_flush_discards_batch_witness :
    0 < twoEqualReadings.semaphore
    ∧ ∃ s, flushIteration (some (CurlFailure.perform "Couldn't connect to server"))
          twoEqualReadings = some s
      ∧ s.world.ctx.values = []
      ∧ (∃ t, flushIteration none twoEqualReadings = some t
          ∧ s.world.ctx = t.world.ctx ∧ s.world.semaphore = t.world.semaphore
          ∧ s.world.posted = t.world.posted ∧ s.pc = t.pc)
      ∧ ∀ curl2 s2, flushIteration curl2 s.world = some s2 →
          s2.world.ctx.values = []
          ∧ s2.world.posted
              = twoEqualReadings.posted ++ [encode twoEqualReadings.ctx.values, ""] :=
  ⟨by decide,
    C7_flush_discards_batch (some (CurlFailure.perform "Couldn't connect to server"))
      twoEqualReadings (by decide)⟩

/-- C8, as stated, fails: in the reachable state where the handler `stop` has run while
the main thread is in `WAITING` with a reading pending, the running flag is false, a
successful wait leads to `DRAINING`, and the iteration drains and posts the reading
before the loop terminates. -/
theorem C8_acquire_ignores_running_flag :
    Reachable [1] ⟨shutdownRace, FlushState.WAITING⟩ [⟨1, F32.finite false 10538189 (-19), 100⟩]
    ∧ shutdownRace.running = false
    ∧ (flushStep ⟨none, none⟩ shutdownRace FlushState.WAITING).map Prod.snd
        = some FlushState.DRAINING
    ∧ (flushIteration none shutdownRace).map (fun s => (s.world.posted, s.pc))
        = some ([GetInfluxLine ⟨1, F32.finite false 10538189 (-19), 100⟩],
                FlushState.TERMINATED) := by
  refine ⟨?_, by decide, by decide, by decide⟩
  exact Reachable.stop _ _ (Reachable.sensor _ _ 1 "20.1" 100 Reachable.init)

/-- C8, amended: in `WAITING`, a wait that returns successfully (the semaphore is
positive) leads to `DRAINING` whatever the running flag is, with the semaphore
decremented; the flag is read at the loop head only: after an interrupted wait, whatever
the semaphore holds (zero included, the blocked wait), the loop waits again if the flag
is true and terminates if it is false, and likewise after `POSTING`. -/
theorem C8_waiting_transitions (w : World) (curl : Option CurlFailure) :
    (0 < w.semaphore →
      flushStep ⟨none, curl⟩ w FlushState.WAITING
        = some ({ w with semaphore := w.semaphore - 1 }, FlushState.DRAINING))
    ∧ flushStep ⟨some EINTR, curl⟩ w FlushState.WAITING
        = some (w, if w.running then FlushState.WAITING else FlushState.TERMINATED)
    ∧ ∀ ss valueCount idList,
        (flushStep ⟨none, curl⟩ w (FlushState.POSTING ss valueCount idList)).map Prod.snd
          = some (if w.running then FlushState.WAITING else FlushState.TERMINATED) := by
  refine ⟨?_, ?_, ?_⟩
  · intro h
    simp [flushStep, sem_wait, h]
  · simp [flushStep, sem_wait, loopHead, EINTR]
  · intro ss valueCount idList
    simp [flushStep, loopHead]

/-- C8 (amended) at concrete inputs: after the handler has run with a reading pending
(flag false, semaphore 2) a successful wait drains and an interrupted wait terminates;
at the start of the loop (flag true, semaphore 0, the blocked wait) an interrupted wait
waits again; with two readings pending (flag true) a successful wait drains and the
loop returns to the wait after posting. -/
theorem C8_waiting_transitions_witness :
    (0 < shutdownRace.semaphore
      ∧ shutdownRace.running = false
      ∧ flushStep ⟨none, none⟩ shutdownRace FlushState.WAITING
          = some ({ shutdownRace with semaphore := shutdownRace.semaphore - 1 },
                  FlushState.DRAINING)
      ∧ flushStep ⟨some EINTR, none⟩ shutdownRace FlushState.WAITING
          = some (shutdownRace, FlushState.TERMINATED)
      ∧ ∀ ss valueCount idList,
          (flushStep ⟨none, none⟩ shutdownRace
              (FlushState.POSTING ss valueCount idList)).map Prod.snd
            = some FlushState.TERMINATED)
    ∧ ((initWorld [1]).semaphore = 0
      ∧ (initWorld [1]).running = true
      ∧ flushStep ⟨some EINTR, none⟩ (initWorld [1]) FlushState.WAITING
          = some (initWorld [1], FlushState.WAITING))
    ∧ (0 < twoEqualReadings.semaphore
      ∧ twoEqualReadings.running = true
      ∧ flushStep ⟨none, none⟩ twoEqualReadings FlushState.WAITING
          = some ({ twoEqualReadings with semaphore := twoEqualReadings.semaphore - 1 },
                  FlushState.DRAINING)
      ∧ ∀ ss valueCount idList,
          (flushStep ⟨none, none⟩ twoEqualReadings
              (FlushState.POSTING ss valueCount idList)).map Prod.snd
            = some FlushState.WAITING) :=
  ⟨⟨by decide, by decide,
      (C8_waiting_transitions shutdownRace none).1 (by decide),
      (C8_waiting_transitions shutdownRace none).2.1,
      (C8_waiting_transitions shutdownRace none).2.2⟩,
    ⟨by decide, by decide, (C8_waiting_transitions (initWorld [1]) none).2.1⟩,
    ⟨by decide, by decide,
      (C8_waiting_transitions twoEqualReadings none).1 (by decide),
      (C8_waiting_transitions twoEqualReadings none).2.2⟩⟩

/-- C9: in every reachable state in which the flush loop is at its wait and the
semaphore is 0, the vector is empty and every reading appended so far has been handed
to `PostInfluxData`; when `stop` runs in such a state the loop terminates after at most
one further iteration (none when the wait is interrupted, one, which posts the empty
text, when the wait succeeds) and the vector is empty at termination. -/
theorem C9_shutdown_loses_nothing (watchedIds : List Int) (s : Sys) (appended : ValueList)
    (hr : Reachable watchedIds s appended)
    (hpc : s.pc = FlushState.WAITING) (hsem : s.world.semaphore = 0) :
    s.world.ctx.values = []
    ∧ joinAll s.world.posted = encode appended
    ∧ (stop s.world).ctx.values = []
    ∧ (∀ curl, flushStep ⟨some EINTR, curl⟩ (stop s.world) s.pc
        = some (stop s.world, FlushState.TERMINATED))
    ∧ (∀ curl, ∃ s', flushIteration curl (stop s.world) = some s'
        ∧ s'.pc = FlushState.TERMINATED
        ∧ s'.world.ctx.values = []
        ∧ s'.world.posted = s.world.posted ++ [""]) := by
  obtain ⟨h1, h2⟩ := Reachable_invariant watchedIds s appended hr
  have hv : s.world.ctx.values = [] := by
    by_contra hne
    have := h1 hne
    omega
  refine ⟨hv, ?_, hv, ?_, ?_⟩
  · rw [hv] at h2
    simpa [encode] using h2
  · intro curl
    rw [hpc]
    simp [flushStep, sem_wait, loopHead, EINTR, stop]
  · intro curl
    obtain ⟨t, ht, hvt, _, hp, _, hrun, _, hpct⟩ :=
      flushIteration_spec curl (stop s.world) (sem_post_pos _)
    refine ⟨t, ht, ?_, hvt, ?_⟩
    · rw [hpct]
      simp [loopHead, stop]
    · rw [hp]
      show s.world.posted ++ [encode s.world.ctx.values] = _
      rw [hv]
      rfl

/-- C9 at a concrete input: one reading was appended and flushed, and the loop waits again on a semaphore of 0. -/
theorem C9_shutdown_loses_nothing_witness :
    Reachable [1] drainedSys [⟨1, F32.finite false 10538189 (-19), 100⟩]
    ∧ drainedSys.pc = FlushState.WAITING
    ∧ drainedSys.world.semaphore = 0
    ∧ (drainedSys.world.ctx.values = []
      ∧ joinAll drainedSys.world.posted = encode [⟨1, F32.finite false 10538189 (-19), 100⟩]
      ∧ (stop drainedSys.world).ctx.values = []
      ∧ (∀ curl, flushStep ⟨some EINTR, curl⟩ (stop drainedSys.world) drainedSys.pc
          = some (stop drainedSys.world, FlushState.TERMINATED))
      ∧ (∀ curl, ∃ s', flushIteration curl (stop drainedSys.world) = some s'
          ∧ s'.pc = FlushState.TERMINATED
          ∧ s'.world.ctx.values = []
          ∧ s'.world.posted = drainedSys.world.posted ++ [""])) :=
  have hr : Reachable [1] drainedSys [⟨1, F32.finite false 10538189 (-19), 100⟩] :=
    Reachable.flush ⟨SensorCb (initSys [1]).world 1 "20.1" 100, (initSys [1]).pc⟩ drainedSys _ none
      (Reachable.sensor _ _ 1 "20.1" 100 Reachable.init) (by decide) (by decide)
  ⟨hr, by decide, by decide, C9_shutdown_loses_nothing [1] drainedSys _ hr (by decide) (by decide)⟩

/-- C10, evaluated where the code departs from it: on the path of an accepted event the
mutex is locked once and unlocked twice, the second time while it is not held; on the
paths of a rejected value and of an unwatched id the calls are balanced. -/
theorem C10_double_unlock_on_success :
    (initWorld [1]).ctx.valueMutex = ⟨false, 0, 0, 0⟩
    ∧ (SensorCb (initWorld [1]) 1 "20.1" 100).ctx.values.length = 1
    ∧ (SensorCb (initWorld [1]) 1 "20.1" 100).ctx.valueMutex = ⟨false, 1, 2, 1⟩
    ∧ (SensorCb (initWorld [1]) 1 "abc" 100).ctx.valueMutex = ⟨false, 1, 1, 0⟩
    ∧ (SensorCb (initWorld [1]) 3 "20.1" 100).ctx.valueMutex = ⟨false, 0, 0, 0⟩ := by
  decide

end Tellstick
